import Mathlib

/-!
Shallow embedding of the 104 job-crawler (`104.py`) crawl-and-extract
pipeline, together with theorems checking the natural-language
specification's claims against it.

Modelling conventions:
* BeautifulSoup documents are modelled structurally: a detail page is a
  record of the elements `parse_job` actually queries, each `Option`-valued
  (`none` = the element or attribute is absent, which makes the
  corresponding soup call raise).  All stored strings are the already
  `.strip()`-ped texts the code extracts.
* Python exceptions are `PyExn` values carrying the exception class name and
  the `args` tuple; fallible code returns `Except PyExn _`.
* The Python `dict` used for a job record is an ordered association list;
  assignment replaces the value in place (or appends for a fresh key),
  exactly as an insertion-ordered Python dict behaves.
* Selenium navigation and waiting are modelled by handing `parse_job` the
  outcome of fetching the page: `Except PyExn DetailPage` (a navigation or
  wait failure is an exception raised inside the `try` block).
-/

/-- A Python exception: class name plus the `args` tuple (as strings). -/
structure PyExn where
  cls : String
  args : List String
deriving DecidableEq

/-- A field value of the job-record dict: a string or a list of strings. -/
inductive Value where
  | Str : String → Value
  | Lst : List String → Value
deriving DecidableEq

/-- The Python job-record dict: insertion-ordered key/value pairs. -/
def Dict := List (String × Value)

instance : DecidableEq Dict := by
  unfold Dict
  infer_instance

/-- Python dict read `d[k]` restricted to present keys (`none` = `KeyError`). -/
def dictGet : Dict → String → Option Value
  | [], _ => none
  | (k', v) :: rest, k => if k' = k then some v else dictGet rest k

/-- Python dict assignment `d[k] = v`: replace in place, append if fresh. -/
def dictSet : Dict → String → Value → Dict
  | [], k, v => [(k, v)]
  | (k', v') :: rest, k, v =>
    if k' = k then (k, v) :: rest else (k', v') :: dictSet rest k v

/-- Python `" ".join(l)`. -/
def join_sp : List String → String
  | [] => ""
  | [s] => s
  | s :: r :: rest => s ++ " " ++ join_sp (r :: rest)

/-- `needle` is a leading block of `hay` (helper for substring search). -/
def charsStart : List Char → List Char → Bool
  | _, [] => true
  | [], _ :: _ => false
  | c :: cs, d :: ds => c = d && charsStart cs ds

/-- `needle` occurs contiguously inside `hay` (helper for substring search). -/
def charsSub : List Char → List Char → Bool
  | hay, [] => (hay.isEmpty || true)
  | [], _ :: _ => false
  | c :: cs, d :: ds => charsStart (c :: cs) (d :: ds) || charsSub cs (d :: ds)

/-- Python `tok in s` for strings: `tok` is a contiguous substring of `s`. -/
def strHasSub (s tok : String) : Bool := charsSub s.data tok.data

/-- Python `s[2:]` (character slicing). -/
def strDrop2 (s : String) : String := String.mk (s.data.drop 2)

/-- The fixed 25-field key set of a job record, in dict-literal order
(`parse_job`, the `data = { ... }` literal). -/
def field_keys : List String :=
  ["公司名稱", "工作職稱", "工作內容",
   "職務類別", "工作待遇", "工作性質", "上班地點", "管理責任", "出差外派",
   "上班時段", "休假制度", "可上班日", "需求人數",
   "接受身份", "工作經歷", "學歷要求", "科系要求", "語文條件", "擅長工具",
   "工作技能", "其他條件",
   "公司福利", "聯絡人", "聯絡方式", "連結路徑"]

/-- The initial record: every field holds the sentinel `"無"`. -/
def init_data : Dict := field_keys.map (fun k => (k, Value.Str "無"))

/-- `description_set` from `parse_job`. -/
def description_set : List String :=
  ["職務類別", "工作待遇", "工作性質", "上班地點",
   "管理責任", "出差外派", "上班時段", "休假制度", "可上班日", "需求人數"]

/-- `requirement_set` from `parse_job`. -/
def requirement_set : List String :=
  ["接受身份", "工作經歷", "學歷要求", "科系要求", "語文條件", "擅長工具", "工作技能"]

/-- One `div.row.mb-2` item of a key/value table on a detail page:
the `h3` heading text (absent = `AttributeError`), and the stripped texts of
its `p`, `u` and `span` descendants, in document order. -/
structure Row where
  h3 : Option String
  ps : List String
  us : List String
  spans : List String
deriving DecidableEq

/-- A detail page as seen by `parse_job`'s queries.  `none` marks an absent
element/attribute (the soup call chain then raises). -/
structure DetailPage where
  companyName : Option String
  jobTitle : Option String
  jobDescription : Option String
  descriptionRows : Option (List Row)
  requirementRows : Option (List Row)
  otherConditions : Option String
  benefits : Option String
  contactInfo : Option (List String)
deriving DecidableEq

/-- Body of the `job-description-table` loop for one row (`parse_job`). -/
def applyDescRow (d : Dict) (item : Row) : Except PyExn Dict :=
  match item.h3 with
  | none => .error ⟨"AttributeError", ["'NoneType' object has no attribute 'text'"]⟩
  | some col =>
    if col ∈ description_set then
      if col = "職務類別" then .ok (dictSet d col (Value.Lst item.us))
      else if col = "工作待遇" then .ok (dictSet d col (Value.Str (join_sp item.ps)))
      else
        match item.ps.head? with
        | some p => .ok (dictSet d col (Value.Str p))
        | none => .error ⟨"AttributeError", ["'NoneType' object has no attribute 'text'"]⟩
    else .ok d

/-- Body of the `job-requirement-table` loop for one row (`parse_job`). -/
def applyReqRow (d : Dict) (item : Row) : Except PyExn Dict :=
  match item.h3 with
  | none => .error ⟨"AttributeError", ["'NoneType' object has no attribute 'text'"]⟩
  | some col =>
    if col ∈ requirement_set then
      if col = "接受身份" then
        .ok (dictSet d col (Value.Lst (item.spans.filter (fun s => !(s == "、")))))
      else
        match item.ps.head? with
        | some p => .ok (dictSet d col (Value.Str p))
        | none => .error ⟨"AttributeError", ["'NoneType' object has no attribute 'text'"]⟩
    else .ok d

/-- Sequential `for item in ...find_all(...)` over table rows, threading the
record dict, stopping at the first raised exception. -/
def foldRows (f : Dict → Row → Except PyExn Dict) (d : Dict) : List Row → Except PyExn Dict
  | [] => .ok d
  | r :: rs =>
    match f d r with
    | .error e => .error e
    | .ok d' => foldRows f d' rs

/-- The `try: data['其他條件'] = ... except: pass` block. -/
def setOther (page : DetailPage) (d : Dict) : Dict :=
  match page.otherConditions with
  | some s => dictSet d "其他條件" (Value.Str s)
  | none => d

/-- The `try: data['公司福利'] = ... except: pass` block. -/
def setBenefits (page : DetailPage) (d : Dict) : Dict :=
  match page.benefits with
  | some s => dictSet d "公司福利" (Value.Str s)
  | none => d

/-- The contact-table `try: ... except: pass` block.  With more than two
data cells Python raises `IndexError` at `contact_set[2]`, which the bare
`except` swallows, keeping the first two assignments. -/
def setContact (page : DetailPage) (d : Dict) : Dict :=
  match page.contactInfo with
  | none => d
  | some [] => d
  | some [a] => dictSet d "聯絡人" (Value.Str a)
  | some (a :: b :: _) => dictSet (dictSet d "聯絡人" (Value.Str a)) "聯絡方式" (Value.Str b)

/-- The body of `parse_job`'s `try` block after the page has been fetched:
the dict literal, the three required fields, the two table loops, the three
best-effort optional blocks, and the final source-URL assignment. -/
def parse_job_inner (job_url : String) (page : DetailPage) : Except PyExn Dict :=
  match page.companyName, page.jobTitle, page.jobDescription,
        page.descriptionRows, page.requirementRows with
  | none, _, _, _, _ => .error ⟨"TypeError", ["'NoneType' object is not subscriptable"]⟩
  | _, none, _, _, _ => .error ⟨"TypeError", ["'NoneType' object is not subscriptable"]⟩
  | _, _, none, _, _ => .error ⟨"AttributeError", ["'NoneType' object has no attribute 'text'"]⟩
  | _, _, _, none, _ => .error ⟨"AttributeError", ["'NoneType' object has no attribute 'find_all'"]⟩
  | _, _, _, _, none => .error ⟨"AttributeError", ["'NoneType' object has no attribute 'find_all'"]⟩
  | some cn, some jt, some jd, some drows, some rrows =>
    match foldRows applyDescRow
        (dictSet (dictSet (dictSet init_data "公司名稱" (Value.Str cn))
          "工作職稱" (Value.Str jt)) "工作內容" (Value.Str jd)) drows with
    | .error e => .error e
    | .ok d1 =>
      match foldRows applyReqRow d1 rrows with
      | .error e => .error e
      | .ok d2 =>
        .ok (dictSet (setContact page (setBenefits page (setOther page d2)))
          "連結路徑" (Value.Str job_url))

/-- The whole `try` body: navigation/wait outcome (`fetched`), then field
extraction on the fetched page. -/
def attempt_parse (job_url : String) (fetched : Except PyExn DetailPage) : Except PyExn Dict :=
  match fetched with
  | .error e => .error e
  | .ok page => parse_job_inner job_url page

/-- The message built in `parse_job`'s handler.  The real format string also
embeds file/line/function extracted from the live traceback, which has no
structural counterpart in this embedding; the error class and `e.args[0]`
detail are kept. -/
def err_msg (cls detail : String) : String := "[" ++ cls ++ "] " ++ detail

/-- `parse_job(job_url)` with the fetch outcome made explicit and the global
`error_log` passed as state.  On success it returns the record and leaves
the log alone; on a caught exception it returns `None` and appends one
`[job_url, errMsg]` entry — unless `e.args` is empty, in which case the
handler's own `e.args[0]` raises `IndexError`, which propagates. -/
def parse_job (job_url : String) (fetched : Except PyExn DetailPage)
    (elog : List (String × String)) :
    Except PyExn (Option Dict × List (String × String)) :=
  match attempt_parse job_url fetched with
  | .ok d => .ok (some d, elog)
  | .error e =>
    match e.args with
    | [] => .error ⟨"IndexError", ["tuple index out of range"]⟩
    | detail :: _ => .ok (none, elog ++ [(job_url, err_msg e.cls detail)])

/-- An `<a>` element of a listing page: its class list and (optional)
`href` attribute. -/
structure Anchor where
  classes : List String
  href : Option String
deriving DecidableEq

/-- An `<article>` element of a listing page: its class list and its anchor
descendants, in document order. -/
structure Article where
  classes : List String
  anchors : List Anchor
deriving DecidableEq

/-- `job.find("a", "js-job-link")['href']` and the URL assembly for one
job entry (`get_job_urls` loop body). -/
def extract_url (job : Article) : Except PyExn String :=
  match job.anchors.find? (fun a => decide ("js-job-link" ∈ a.classes)) with
  | none => .error ⟨"TypeError", ["'NoneType' object is not subscriptable"]⟩
  | some a =>
    match a.href with
    | none => .error ⟨"KeyError", ["href"]⟩
    | some h => .ok ("https://" ++ strDrop2 h)

/-- The `for job in soup.find_all('article', "js-job-item")` accumulation. -/
def get_job_urls_from : List Article → Except PyExn (List String)
  | [] => .ok []
  | job :: rest =>
    match extract_url job with
    | .error e => .error e
    | .ok u =>
      match get_job_urls_from rest with
      | .error e => .error e
      | .ok us => .ok (u :: us)

/-- `get_job_urls(page_source)`: a listing snapshot is modelled as its
document-order list of `<article>` elements. -/
def get_job_urls (page : List Article) : Except PyExn (List String) :=
  get_job_urls_from (page.filter (fun a => decide ("js-job-item" ∈ a.classes)))

/-- The pagination loop (`for _ in range(n_pages - 2)`), with the listing
session modelled by the current page index: each iteration snapshots the
current page then clicks to the next one.  Waits are modelled as succeeding
(a wait timeout is fatal to the whole run).  Returns the final page index
and the snapshots accumulated by the loop. -/
def paginate_loop : Nat → Nat → List Nat → Nat × List Nat
  | 0, page, acc => (page, acc)
  | Nat.succ k, page, acc => paginate_loop k (page + 1) (acc ++ [page])

/-- Lines 188–194 of `main`: loop over `range(n_pages - 2)` collecting
snapshots, then one final `page_sources.append(...)`.  Python's
`range` of a negative number is empty, matching truncated `Nat`
subtraction.  A snapshot is identified by the index of the page it
captures. -/
def paginate (n_pages : Nat) : List Nat :=
  let r := paginate_loop (n_pages - 2) 1 []
  r.2 ++ [r.1]

/-- Python `token in value`: substring containment for a string value,
exact element membership for a list value. -/
def pyIn (tok : String) : Value → Bool
  | .Str s => strHasSub s tok
  | .Lst l => decide (tok ∈ l)

/-- One configured filter column: `config.filters[col]` with its optional
`includes` and `excludes` token lists. -/
structure FilterCfg where
  col : String
  includes : Option (List String)
  excludes : Option (List String)
deriving DecidableEq

/-- One list comprehension `[job for job in data if token in job[col]]`
(`keep = true`) or `... if token not in job[col]` (`keep = false`).
A record without the column raises `KeyError`. -/
def filterStep (col tok : String) (keep : Bool) : List Dict → Except PyExn (List Dict)
  | [] => .ok []
  | j :: rest =>
    match dictGet j col with
    | none => .error ⟨"KeyError", [col]⟩
    | some v =>
      match filterStep col tok keep rest with
      | .error e => .error e
      | .ok rest' => .ok (if pyIn tok v == keep then j :: rest' else rest')

/-- `for token in includes: data = [...]` (or excludes), token by token. -/
def applyTokens (col : String) (keep : Bool) : List String → List Dict → Except PyExn (List Dict)
  | [], data => .ok data
  | t :: ts, data =>
    match filterStep col t keep data with
    | .error e => .error e
    | .ok d' => applyTokens col keep ts d'

/-- Lines 221–227 of `main`: for each configured column, apply all include
tokens then all exclude tokens (`None` lists are skipped, which coincides
with an empty token loop). -/
def applyFilters : List FilterCfg → List Dict → Except PyExn (List Dict)
  | [], data => .ok data
  | f :: fs, data =>
    match applyTokens f.col true (f.includes.getD []) data with
    | .error e => .error e
    | .ok d1 =>
      match applyTokens f.col false (f.excludes.getD []) d1 with
      | .error e => .error e
      | .ok d2 => applyFilters fs d2

/-- The company values of the records, in order (`job['公司名稱']`). -/
def company_values : List Dict → Except PyExn (List Value)
  | [] => .ok []
  | j :: js =>
    match dictGet j "公司名稱" with
    | none => .error ⟨"KeyError", ["公司名稱"]⟩
    | some v =>
      match company_values js with
      | .error e => .error e
      | .ok vs => .ok (v :: vs)

/-- Lines 231–234 of `main`: `len(company_set)`, the number of distinct
company-field values among the (filtered) records. -/
def company_count (data : List Dict) : Except PyExn Nat :=
  match company_values data with
  | .error e => .error e
  | .ok vs => .ok vs.dedup.length

/-- `list(p.imap(parse_job, job_urls))`: each task runs in a pool **worker
process**, so its appends to the module-level `error_log` mutate the
worker's copy only; just the return value reaches the parent, and the
worker-side log is discarded here.  An exception propagating out of
`parse_job` re-raises in the parent when the result is consumed. -/
def parallel_parse (site : String → Except PyExn DetailPage) :
    List String → Except PyExn (List (Option Dict))
  | [] => .ok []
  | u :: us =>
    match parse_job u (site u) [] with
    | .error e => .error e
    | .ok (r, _) =>
      match parallel_parse site us with
      | .error e => .error e
      | .ok rs => .ok (r :: rs)

/-- The serial retry loop `for log in logs: data.append(parse_job(log[0]))`.
These calls run in the parent process; the entries they may append to the
parent's `error_log` are never read again, so only the returned record is
kept. -/
def retry_all (site : String → Except PyExn DetailPage) :
    List (String × String) → List (Option Dict) → Except PyExn (List (Option Dict))
  | [], data => .ok data
  | l :: ls, data =>
    match parse_job l.1 (site l.1) [] with
    | .error e => .error e
    | .ok (r, _) => retry_all site ls (data ++ [r])

/-- The counts `main` logs plus the records kept and the URLs the retry
pass processed. -/
structure RunSummary where
  records : List Dict
  totalCount : Nat
  successCount : Nat
  retriedUrls : List String
deriving DecidableEq

/-- Lines 205–217 of `main`: the parallel extraction pass, the
`logs = copy.deepcopy(error_log)` snapshot taken **in the parent process**
(still empty, because every `error_log.append` so far happened inside pool
worker processes), the guarded retry loop (`retry_all` on an empty list is
exactly the skipped `if len(logs) > 0` branch), `Total Data Count`,
dropping `None` entries, and `Succesfully Parsed Data Count`. -/
def main_pipeline (site : String → Except PyExn DetailPage) (job_urls : List String) :
    Except PyExn RunSummary :=
  match parallel_parse site job_urls with
  | .error e => .error e
  | .ok data =>
    let logs : List (String × String) := []
    match retry_all site logs data with
    | .error e => .error e
    | .ok data2 =>
      let good := data2.filterMap id
      .ok ⟨good, data2.length, good.length, logs.map Prod.fst⟩

/-- The named field of the record `parse_job` produces for a page, when it
produces one (projection helper for concrete evaluations). -/
def parsedField (url : String) (page : DetailPage) (k : String) : Option Value :=
  match parse_job url (.ok page) [] with
  | .ok (some d, _) => dictGet d k
  | _ => none

/-- A detail page with its three optional sections (other-conditions,
benefits, contact) absent, everything else as in `p`. -/
def noOptionals (p : DetailPage) : DetailPage :=
  { p with otherConditions := none, benefits := none, contactInfo := none }

/-- Whether record `j` passes one include (`keep = true`) or exclude
(`keep = false`) token test on column `col`, as the code evaluates it
(`token in job[col]` / `token not in job[col]`).  A missing column (which
would raise `KeyError` and never yields a filtered list) is read as `true`
here; `applyFilters` only succeeds when no surviving record hits that case. -/
def getPasses (j : Dict) (col tok : String) (keep : Bool) : Bool :=
  match dictGet j col with
  | some v => pyIn tok v == keep
  | none => true

/-- Whether a record passes every include and exclude token of one
configured column. -/
def passesFilter (j : Dict) (f : FilterCfg) : Bool :=
  (f.includes.getD []).all (fun t => getPasses j f.col t true) &&
  (f.excludes.getD []).all (fun t => getPasses j f.col t false)

/-- Whether a record passes every configured filter. -/
def passesAll (fs : List FilterCfg) (j : Dict) : Bool := fs.all (passesFilter j)

/-- Modelled from the claim's words ("contains ... under substring
semantics"), for comparison with the code's `pyIn`: the token occurs as a
substring of the string value, or of one of the elements of a list value. -/
def specSubstringContains (v : Value) (tok : String) : Bool :=
  match v with
  | .Str s => strHasSub s tok
  | .Lst l => l.any (fun s => strHasSub s tok)

/-- A fully populated detail page (all required elements and all optional
sections present), used to exercise the success path. -/
def sample_page : DetailPage :=
  { companyName := some "復仇者聯盟股份有限公司"
    jobTitle := some "軟體工程師"
    jobDescription := some "開發爬蟲"
    descriptionRows := some
      [⟨some "職務類別", [], ["軟體工程師", "演算法工程師"], []⟩,
       ⟨some "工作待遇", ["月薪", "40000元"], [], []⟩,
       ⟨some "上班地點", ["台北市"], [], []⟩,
       ⟨some "出場順序", ["不理"], [], []⟩]
    requirementRows := some
      [⟨some "接受身份", [], [], ["上班族", "、", "應屆畢業生"]⟩,
       ⟨some "工作經歷", ["不拘"], [], []⟩]
    otherConditions := some "會寫程式"
    benefits := some "年終獎金"
    contactInfo := some ["王先生", "wang@example.com"] }

/-- The record `parse_job` produces for `sample_page`. -/
def sample_rec : Dict :=
  match parse_job "https://www.104.com.tw/job/sample" (.ok sample_page) [] with
  | .ok (some d, _) => d
  | _ => []

/-- A detail page whose required company-name element is missing, so
extraction fails on it. -/
def c1page : DetailPage :=
  { companyName := none
    jobTitle := some "工程師"
    jobDescription := some "內容"
    descriptionRows := some []
    requirementRows := some []
    otherConditions := none
    benefits := none
    contactInfo := none }

/-- A site on which every URL resolves to the failing page `c1page`. -/
def c1site : String → Except PyExn DetailPage := fun _ => .ok c1page

/-- A detail page whose description element is present but has empty text,
and which carries no optional sections. -/
def c4page : DetailPage :=
  { companyName := some "某公司"
    jobTitle := some "工程師"
    jobDescription := some ""
    descriptionRows := some []
    requirementRows := some []
    otherConditions := none
    benefits := none
    contactInfo := none }

/-- A detail page whose category (職務類別) row contains a lone `'、'`
separator element. -/
def c7page : DetailPage :=
  { companyName := some "某公司"
    jobTitle := some "工程師"
    jobDescription := some "內容"
    descriptionRows := some [⟨some "職務類別", [], ["、"], []⟩]
    requirementRows := some []
    otherConditions := none
    benefits := none
    contactInfo := none }

/-- A record whose category field is a list with one element that properly
contains the token "engineering" as a substring. -/
def c3job : Dict := dictSet init_data "職務類別" (Value.Lst ["software engineering"])

/-- A filter spec with the single include token "engineering" on the
category column. -/
def c3filters : List FilterCfg := [⟨"職務類別", some ["engineering"], none⟩]

/-- A record whose 工作性質 field is the string "全職". -/
def wjob : Dict := dictSet init_data "工作性質" (Value.Str "全職")

/-- A filter spec with one include token "全" on 工作性質. -/
def wfilters : List FilterCfg := [⟨"工作性質", some ["全"], none⟩]

/-- A one-entry listing page. -/
def w8p1 : List Article :=
  [⟨["js-job-item"], [⟨["js-job-link"], some "//www.104.com.tw/job/a1"⟩]⟩]

/-- A listing page with one non-job article followed by one job entry. -/
def w8p2 : List Article :=
  [⟨["banner"], []⟩,
   ⟨["js-job-item"], [⟨["js-job-link"], some "//www.104.com.tw/job/b2"⟩]⟩]

instance {ε α : Type} [DecidableEq ε] [DecidableEq α] : DecidableEq (Except ε α) :=
  fun x y =>
    match x, y with
    | .ok a, .ok b =>
      if h : a = b then isTrue (by rw [h]) else isFalse (by intro hc; cases hc; exact h rfl)
    | .error a, .error b =>
      if h : a = b then isTrue (by rw [h]) else isFalse (by intro hc; cases hc; exact h rfl)
    | .ok _, .error _ => isFalse (by intro hc; cases hc)
    | .error _, .ok _ => isFalse (by intro hc; cases hc)

/-! ### Basic dictionary lemmas -/

theorem dictSet_get_self (d : Dict) (k : String) (v : Value) :
    dictGet (dictSet d k v) k = some v := by
  induction d with
  | nil => simp [dictSet, dictGet]
  | cons kv rest ih =>
    obtain ⟨k', v'⟩ := kv
    by_cases h : k' = k
    · simp [dictSet, dictGet, h]
    · simp [dictSet, dictGet, h, ih]

theorem dictSet_get_ne (d : Dict) {k k' : String} (v : Value) (h : k' ≠ k) :
    dictGet (dictSet d k v) k' = dictGet d k' := by
  have hne : ¬(k = k') := fun hc => h hc.symm
  induction d with
  | nil => simp [dictSet, dictGet, hne]
  | cons kv rest ih =>
    obtain ⟨k0, v0⟩ := kv
    by_cases h0 : k0 = k
    · subst h0
      simp [dictSet, dictGet, hne]
    · simp [dictSet, dictGet, h0, ih]

theorem dictSet_keys_of_mem (d : Dict) {k : String} (v : Value)
    (h : k ∈ d.map Prod.fst) :
    (dictSet d k v).map Prod.fst = d.map Prod.fst := by
  induction d with
  | nil => simp at h
  | cons kv rest ih =>
    obtain ⟨k0, v0⟩ := kv
    by_cases h0 : k0 = k
    · simp [dictSet, h0]
    · simp only [List.map_cons, List.mem_cons] at h
      rcases h with h | h

      · exact absurd h.symm h0
      · simp [dictSet, h0, ih h]

theorem dictGet_isSome_of_mem_keys {d : Dict} {k : String}
    (h : k ∈ d.map Prod.fst) : (dictGet d k).isSome := by
  induction d with
  | nil => simp at h
  | cons kv rest ih =>
    obtain ⟨k0, v0⟩ := kv
    by_cases h0 : k0 = k
    · simp [dictGet, h0]
    · simp only [List.map_cons, List.mem_cons] at h
      rcases h with h | h
      · exact absurd h.symm h0
      · simp [dictGet, h0, ih h]

/-! ### Row-processing lemmas -/

theorem desc_subset : ∀ c ∈ description_set, c ∈ field_keys := by decide

theorem req_subset : ∀ c ∈ requirement_set, c ∈ field_keys := by decide

theorem init_data_keys : init_data.map Prod.fst = field_keys := by
  have h : (Prod.fst ∘ fun k : String => (k, Value.Str "無")) = id := rfl
  rw [init_data, List.map_map, h, List.map_id]

theorem applyDescRow_shape {d d' : Dict} {it : Row}
    (h : applyDescRow d it = .ok d') :
    d' = d ∨ ∃ col v, it.h3 = some col ∧ col ∈ description_set ∧ d' = dictSet d col v := by
  unfold applyDescRow at h
  repeat' split at h
  all_goals try (cases h)
  all_goals first
  | exact Or.inl rfl
  | exact Or.inr ⟨_, _, by assumption, by assumption, rfl⟩

theorem applyReqRow_shape {d d' : Dict} {it : Row}
    (h : applyReqRow d it = .ok d') :
    d' = d ∨ ∃ col v, it.h3 = some col ∧ col ∈ requirement_set ∧ d' = dictSet d col v := by
  unfold applyReqRow at h
  repeat' split at h
  all_goals try (cases h)
  all_goals first
  | exact Or.inl rfl
  | exact Or.inr ⟨_, _, by assumption, by assumption, rfl⟩

theorem applyDescRow_keys {d d' : Dict} {it : Row}
    (h : applyDescRow d it = .ok d') (hk : d.map Prod.fst = field_keys) :
    d'.map Prod.fst = field_keys := by
  rcases applyDescRow_shape h with h1 | ⟨col, v, _, hc, h1⟩
  · rwa [h1]
  · rw [h1, dictSet_keys_of_mem d v (by rw [hk]; exact desc_subset col hc)]
    exact hk

theorem applyReqRow_keys {d d' : Dict} {it : Row}
    (h : applyReqRow d it = .ok d') (hk : d.map Prod.fst = field_keys) :
    d'.map Prod.fst = field_keys := by
  rcases applyReqRow_shape h with h1 | ⟨col, v, _, hc, h1⟩
  · rwa [h1]
  · rw [h1, dictSet_keys_of_mem d v (by rw [hk]; exact req_subset col hc)]
    exact hk

theorem applyDescRow_get_ne {d d' : Dict} {it : Row} {k : String}
    (hknot : k ∉ description_set) (h : applyDescRow d it = .ok d') :
    dictGet d' k = dictGet d k := by
  rcases applyDescRow_shape h with h1 | ⟨col, v, _, hc, h1⟩
  · rw [h1]
  · rw [h1, dictSet_get_ne d v (fun hk => hknot (by rw [hk]; exact hc))]

theorem applyReqRow_get_ne {d d' : Dict} {it : Row} {k : String}
    (hknot : k ∉ requirement_set) (h : applyReqRow d it = .ok d') :
    dictGet d' k = dictGet d k := by
  rcases applyReqRow_shape h with h1 | ⟨col, v, _, hc, h1⟩
  · rw [h1]
  · rw [h1, dictSet_get_ne d v (fun hk => hknot (by rw [hk]; exact hc))]

theorem foldRows_preserve (P : Dict → Prop) {f : Dict → Row → Except PyExn Dict}
    (hf : ∀ d r d', f d r = .ok d' → P d → P d') :
    ∀ (rows : List Row) (d d' : Dict), foldRows f d rows = .ok d' → P d → P d' := by
  intro rows
  induction rows with
  | nil =>
    intro d d' h hp
    unfold foldRows at h
    injection h with h
    rwa [← h]
  | cons r rs ih =>
    intro d d' h hp
    unfold foldRows at h
    cases hr : f d r with
    | error e => rw [hr] at h; cases h
    | ok dm => rw [hr] at h; exact ih dm d' h (hf d r dm hr hp)

theorem applyDescRow_err_args {d : Dict} {it : Row} {e : PyExn}
    (h : applyDescRow d it = .error e) : e.args ≠ [] := by
  unfold applyDescRow at h
  repeat' split at h
  all_goals try (cases h)
  all_goals simp

theorem applyReqRow_err_args {d : Dict} {it : Row} {e : PyExn}
    (h : applyReqRow d it = .error e) : e.args ≠ [] := by
  unfold applyReqRow at h
  repeat' split at h
  all_goals try (cases h)
  all_goals simp

theorem foldRows_err_args {f : Dict → Row → Except PyExn Dict}
    (hf : ∀ d r e, f d r = .error e → e.args ≠ []) :
    ∀ (rows : List Row) (d : Dict) (e : PyExn),
      foldRows f d rows = .error e → e.args ≠ [] := by
  intro rows
  induction rows with
  | nil => intro d e h; unfold foldRows at h; cases h
  | cons r rs ih =>
    intro d e h
    unfold foldRows at h
    cases hr : f d r with
    | error e0 =>
      rw [hr] at h
      injection h with h
      rw [← h]
      exact hf d r e0 hr
    | ok dm => rw [hr] at h; exact ih dm e h

/-- Successful extraction decomposed into its stages: the five required
element lookups, the two table folds, and the final optional-section and
source-URL writes. -/
theorem inner_ok_split {url : String} {page : DetailPage} {d : Dict}
    (h : parse_job_inner url page = .ok d) :
    ∃ cn jt jd drows rrows d1 d2,
      page.companyName = some cn ∧ page.jobTitle = some jt ∧
      page.jobDescription = some jd ∧ page.descriptionRows = some drows ∧
      page.requirementRows = some rrows ∧
      foldRows applyDescRow
        (dictSet (dictSet (dictSet init_data "公司名稱" (Value.Str cn))
          "工作職稱" (Value.Str jt)) "工作內容" (Value.Str jd)) drows = .ok d1 ∧
      foldRows applyReqRow d1 rrows = .ok d2 ∧
      d = dictSet (setContact page (setBenefits page (setOther page d2)))
        "連結路徑" (Value.Str url) := by
  obtain ⟨ocn, ojt, ojd, odr, orr, ooc, obf, oci⟩ := page
  cases ocn with
  | none => simp [parse_job_inner] at h
  | some cn =>
  cases ojt with
  | none => simp [parse_job_inner] at h
  | some jt =>
  cases ojd with
  | none => simp [parse_job_inner] at h
  | some jd =>
  cases odr with
  | none => simp [parse_job_inner] at h
  | some drows =>
  cases orr with
  | none => simp [parse_job_inner] at h
  | some rrows =>
  simp only [parse_job_inner] at h
  cases hd1 : foldRows applyDescRow
      (dictSet (dictSet (dictSet init_data "公司名稱" (Value.Str cn))
        "工作職稱" (Value.Str jt)) "工作內容" (Value.Str jd)) drows with
  | error e => rw [hd1] at h; simp at h
  | ok d1 =>
  rw [hd1] at h
  simp only [] at h
  cases hd2 : foldRows applyReqRow d1 rrows with
  | error e => rw [hd2] at h; simp at h
  | ok d2 =>
  rw [hd2] at h
  simp only [Except.ok.injEq] at h
  exact ⟨cn, jt, jd, drows, rrows, d1, d2, rfl, rfl, rfl, rfl, rfl, hd1, hd2, h.symm⟩

/-- Every exception the extraction body raises carries a non-empty `args`
tuple (each raise site in `parse_job_inner` has a message). -/
theorem inner_err_args {url : String} {page : DetailPage} {e : PyExn}
    (h : parse_job_inner url page = .error e) : e.args ≠ [] := by
  obtain ⟨ocn, ojt, ojd, odr, orr, ooc, obf, oci⟩ := page
  cases ocn with
  | none => simp only [parse_job_inner, Except.error.injEq] at h; rw [← h]; simp
  | some cn =>
  cases ojt with
  | none => simp only [parse_job_inner, Except.error.injEq] at h; rw [← h]; simp
  | some jt =>
  cases ojd with
  | none => simp only [parse_job_inner, Except.error.injEq] at h; rw [← h]; simp
  | some jd =>
  cases odr with
  | none => simp only [parse_job_inner, Except.error.injEq] at h; rw [← h]; simp
  | some drows =>
  cases orr with
  | none => simp only [parse_job_inner, Except.error.injEq] at h; rw [← h]; simp
  | some rrows =>
  simp only [parse_job_inner] at h
  cases hd1 : foldRows applyDescRow
      (dictSet (dictSet (dictSet init_data "公司名稱" (Value.Str cn))
        "工作職稱" (Value.Str jt)) "工作內容" (Value.Str jd)) drows with
  | error e1 =>
    rw [hd1] at h
    simp only [Except.error.injEq] at h
    rw [← h]
    exact foldRows_err_args (fun d r e' he => applyDescRow_err_args he) drows _ e1 hd1
  | ok d1 =>
  rw [hd1] at h
  simp only [] at h
  cases hd2 : foldRows applyReqRow d1 rrows with
  | error e2 =>
    rw [hd2] at h
    simp only [Except.error.injEq] at h
    rw [← h]
    exact foldRows_err_args (fun d r e' he => applyReqRow_err_args he) rrows _ e2 hd2
  | ok d2 => rw [hd2] at h; simp at h

/-- A successful `parse_job` result comes from a successful fetch plus a
successful extraction, and leaves the error log untouched. -/
theorem parse_job_ok_some {url : String} {fetched : Except PyExn DetailPage}
    {elog elog' : List (String × String)} {d : Dict}
    (h : parse_job url fetched elog = .ok (some d, elog')) :
    (∃ page, fetched = .ok page ∧ parse_job_inner url page = .ok d) ∧ elog' = elog := by
  unfold parse_job at h
  cases ha : attempt_parse url fetched with
  | ok d0 =>
    rw [ha] at h
    simp only [Except.ok.injEq, Prod.mk.injEq, Option.some.injEq] at h
    obtain ⟨hd, hl⟩ := h
    cases fetched with
    | error e => simp [attempt_parse] at ha
    | ok page =>
      simp only [attempt_parse] at ha
      rw [hd] at ha
      exact ⟨⟨page, rfl, ha⟩, hl.symm⟩
  | error e =>
    rw [ha] at h
    simp only [] at h
    cases hargs : e.args with
    | nil => rw [hargs] at h; simp at h
    | cons a rest => rw [hargs] at h; simp at h

/-- Claim C10: `parse_job` never propagates an exception to its caller:
whenever every exception the fetch can raise has a non-empty `args` tuple
(the handler's `e.args[0]` presupposes this; every exception the extraction
body itself raises does carry a message), `parse_job` returns normally —
either `None` with exactly one `[url, message]` entry appended to the error
log, or a record with the log unchanged. -/
theorem parse_job_never_propagates (url : String) (fetched : Except PyExn DetailPage)
    (elog : List (String × String))
    (hfetch : ∀ e, fetched = Except.error e → e.args ≠ []) :
    ∃ r elog2, parse_job url fetched elog = .ok (r, elog2) ∧
      ((r = none ∧ ∃ m, elog2 = elog ++ [(url, m)]) ∨
       (∃ d, r = some d ∧ elog2 = elog)) := by
  cases ha : attempt_parse url fetched with
  | ok d =>
    refine ⟨some d, elog, ?_, Or.inr ⟨d, rfl, rfl⟩⟩
    unfold parse_job
    rw [ha]
  | error e =>
    have hne : e.args ≠ [] := by
      cases fetched with
      | error e0 =>
        simp only [attempt_parse] at ha
        injection ha with ha
        rw [← ha]
        exact hfetch e0 rfl
      | ok page =>
        simp only [attempt_parse] at ha
        exact inner_err_args ha
    cases hargs : e.args with
    | nil => exact absurd hargs hne
    | cons a rest =>
      refine ⟨none, elog ++ [(url, err_msg e.cls a)], ?_, Or.inl ⟨rfl, err_msg e.cls a, rfl⟩⟩
      unfold parse_job
      rw [ha]
      simp only []
      rw [hargs]

/-- Witness for C10 at a concrete fully populated page: the fetch is
successful (so the hypothesis is vacuous) and `parse_job` returns normally. -/
theorem parse_job_never_propagates_witness :
    (∀ e, (Except.ok sample_page : Except PyExn DetailPage) = Except.error e → e.args ≠ []) ∧
    (∃ r elog2,
      parse_job "https://www.104.com.tw/job/sample" (.ok sample_page) [] = .ok (r, elog2) ∧
      ((r = none ∧ ∃ m, elog2 = ([] : List (String × String)) ++ [("https://www.104.com.tw/job/sample", m)]) ∨
       (∃ d, r = some d ∧ elog2 = []))) :=
  ⟨(fun _ h => nomatch h),
   parse_job_never_propagates "https://www.104.com.tw/job/sample" (.ok sample_page) []
     (fun _ h => nomatch h)⟩

/-- Claim C5: every record `parse_job` produces carries, in its source-URL
field (連結路徑), exactly the URL that was passed in; the final, unconditional
`data['連結路徑'] = job_url` assignment guarantees it on every success path. -/
theorem parse_job_source_url (url : String) (fetched : Except PyExn DetailPage)
    (elog elog' : List (String × String)) (d : Dict)
    (h : parse_job url fetched elog = .ok (some d, elog')) :
    dictGet d "連結路徑" = some (Value.Str url) := by
  obtain ⟨⟨page, hf, hi⟩, hl⟩ := parse_job_ok_some h
  obtain ⟨cn, jt, jd, drows, rrows, d1, d2, hcn, hjt, hjd, hdr, hrr, hd1, hd2, hd⟩ :=
    inner_ok_split hi
  rw [hd]
  exact dictSet_get_self _ _ _

/-- Witness for C5 at the concrete sample page. -/
theorem parse_job_source_url_witness :
    parse_job "https://www.104.com.tw/job/sample" (.ok sample_page) [] = .ok (some sample_rec, []) ∧
    dictGet sample_rec "連結路徑" = some (Value.Str "https://www.104.com.tw/job/sample") :=
  ⟨by decide,
   parse_job_source_url "https://www.104.com.tw/job/sample" (.ok sample_page) [] [] sample_rec
     (by decide)⟩

theorem setOther_keys {page : DetailPage} {d : Dict}
    (h : d.map Prod.fst = field_keys) :
    (setOther page d).map Prod.fst = field_keys := by
  unfold setOther
  cases page.otherConditions with
  | none => exact h
  | some s =>
    rw [dictSet_keys_of_mem d _ (by rw [h]; decide)]
    exact h

theorem setBenefits_keys {page : DetailPage} {d : Dict}
    (h : d.map Prod.fst = field_keys) :
    (setBenefits page d).map Prod.fst = field_keys := by
  unfold setBenefits
  cases page.benefits with
  | none => exact h
  | some s =>
    rw [dictSet_keys_of_mem d _ (by rw [h]; decide)]
    exact h

theorem setContact_keys {page : DetailPage} {d : Dict}
    (h : d.map Prod.fst = field_keys) :
    (setContact page d).map Prod.fst = field_keys := by
  unfold setContact
  cases page.contactInfo with
  | none => exact h
  | some info =>
    cases info with
    | nil => exact h
    | cons a rest =>
      cases rest with
      | nil =>
        rw [dictSet_keys_of_mem d _ (by rw [h]; decide)]
        exact h
      | cons b rest2 =>
        rw [dictSet_keys_of_mem _ _
          (by rw [dictSet_keys_of_mem d _ (by rw [h]; decide), h]; decide)]
        rw [dictSet_keys_of_mem d _ (by rw [h]; decide)]
        exact h

/-- Any key untouched by the three required-field writes and by both table
loops still holds the sentinel after the loops. -/
theorem chain_get_sentinel {cn jt jd : String} {drows rrows : List Row} {d1 d2 : Dict}
    (k : String)
    (hk1 : k ≠ "公司名稱") (hk2 : k ≠ "工作職稱") (hk3 : k ≠ "工作內容")
    (hkd : k ∉ description_set) (hkr : k ∉ requirement_set)
    (hinit : dictGet init_data k = some (Value.Str "無"))
    (hd1 : foldRows applyDescRow
      (dictSet (dictSet (dictSet init_data "公司名稱" (Value.Str cn))
        "工作職稱" (Value.Str jt)) "工作內容" (Value.Str jd)) drows = .ok d1)
    (hd2 : foldRows applyReqRow d1 rrows = .ok d2) :
    dictGet d2 k = some (Value.Str "無") := by
  have h1 : dictGet (dictSet init_data "公司名稱" (Value.Str cn)) k = some (Value.Str "無") := by
    rw [dictSet_get_ne _ _ hk1]
    exact hinit
  have h2 : dictGet (dictSet (dictSet init_data "公司名稱" (Value.Str cn))
      "工作職稱" (Value.Str jt)) k = some (Value.Str "無") := by
    rw [dictSet_get_ne _ _ hk2]
    exact h1
  have h3 : dictGet (dictSet (dictSet (dictSet init_data "公司名稱" (Value.Str cn))
      "工作職稱" (Value.Str jt)) "工作內容" (Value.Str jd)) k = some (Value.Str "無") := by
    rw [dictSet_get_ne _ _ hk3]
    exact h2
  have h4 : dictGet d1 k = some (Value.Str "無") :=
    foldRows_preserve (fun dd => dictGet dd k = some (Value.Str "無"))
      (fun _ _ _ hh hp => by
        show dictGet _ k = some (Value.Str "無")
        rw [applyDescRow_get_ne hkd hh]
        exact hp)
      drows _ d1 hd1 h3
  exact foldRows_preserve (fun dd => dictGet dd k = some (Value.Str "無"))
    (fun _ _ _ hh hp => by
      show dictGet _ k = some (Value.Str "無")
      rw [applyReqRow_get_ne hkr hh]
      exact hp)
    rrows d1 d2 hd2 h4

theorem applyDescRow_get_ne_header {d d' : Dict} {it : Row} {k : String}
    (hh : it.h3 ≠ some k) (h : applyDescRow d it = .ok d') :
    dictGet d' k = dictGet d k := by
  rcases applyDescRow_shape h with h1 | ⟨col, v, hh3, hc, h1⟩
  · rw [h1]
  · rw [h1, dictSet_get_ne d v (fun hk => hh (by rw [hk]; exact hh3))]

theorem applyReqRow_get_ne_header {d d' : Dict} {it : Row} {k : String}
    (hh : it.h3 ≠ some k) (h : applyReqRow d it = .ok d') :
    dictGet d' k = dictGet d k := by
  rcases applyReqRow_shape h with h1 | ⟨col, v, hh3, hc, h1⟩
  · rw [h1]
  · rw [h1, dictSet_get_ne d v (fun hk => hh (by rw [hk]; exact hh3))]

theorem foldRows_get_eq {f : Dict → Row → Except PyExn Dict} {k : String} :
    ∀ (rows : List Row) (d d' : Dict),
    (∀ dd r dd', r ∈ rows → f dd r = .ok dd' → dictGet dd' k = dictGet dd k) →
    foldRows f d rows = .ok d' → dictGet d' k = dictGet d k := by
  intro rows
  induction rows with
  | nil =>
    intro d d' _ h
    unfold foldRows at h
    injection h with h
    rw [← h]
  | cons r rs ih =>
    intro d d' hstep h
    unfold foldRows at h
    cases hr : f d r with
    | error e => rw [hr] at h; simp at h
    | ok dm =>
      rw [hr] at h
      rw [ih dm d' (fun dd r' dd' hm => hstep dd r' dd' (List.mem_cons_of_mem _ hm)) h]
      exact hstep d r dm (List.mem_cons_self _ _) hr

theorem setOther_get_ne {page : DetailPage} {d : Dict} {k : String}
    (hk : k ≠ "其他條件") : dictGet (setOther page d) k = dictGet d k := by
  unfold setOther
  cases page.otherConditions with
  | none => rfl
  | some s => exact dictSet_get_ne d _ hk

theorem setBenefits_get_ne {page : DetailPage} {d : Dict} {k : String}
    (hk : k ≠ "公司福利") : dictGet (setBenefits page d) k = dictGet d k := by
  unfold setBenefits
  cases page.benefits with
  | none => rfl
  | some s => exact dictSet_get_ne d _ hk

theorem setContact_get_ne {page : DetailPage} {d : Dict} {k : String}
    (hk1 : k ≠ "聯絡人") (hk2 : k ≠ "聯絡方式") :
    dictGet (setContact page d) k = dictGet d k := by
  unfold setContact
  cases page.contactInfo with
  | none => rfl
  | some info =>
    cases info with
    | nil => rfl
    | cons a rest =>
      cases rest with
      | nil => exact dictSet_get_ne d _ hk1
      | cons b r2 =>
        rw [dictSet_get_ne _ _ hk2]
        exact dictSet_get_ne d _ hk1

theorem setContact_eq_of_empty {page : DetailPage} {d : Dict}
    (h : ∀ info, page.contactInfo = some info → info = []) :
    setContact page d = d := by
  unfold setContact
  cases hc : page.contactInfo with
  | none => rfl
  | some info =>
    have he := h info hc
    subst he
    rfl

theorem setContact_get_short {page : DetailPage} {d : Dict}
    (h : ∀ info, page.contactInfo = some info → info.length ≤ 1) :
    dictGet (setContact page d) "聯絡方式" = dictGet d "聯絡方式" := by
  unfold setContact
  cases hc : page.contactInfo with
  | none => rfl
  | some info =>
    cases info with
    | nil => rfl
    | cons a rest =>
      cases rest with
      | nil => exact dictSet_get_ne d _ (by decide)
      | cons b r2 =>
        have hlen := h (a :: b :: r2) hc
        simp at hlen

theorem final_write_get_ne {page : DetailPage} {d2 : Dict} {k url : String}
    (h1 : k ≠ "連結路徑") (h2 : k ≠ "聯絡人") (h3 : k ≠ "聯絡方式")
    (h4 : k ≠ "公司福利") (h5 : k ≠ "其他條件") :
    dictGet (dictSet (setContact page (setBenefits page (setOther page d2)))
      "連結路徑" (Value.Str url)) k = dictGet d2 k := by
  rw [dictSet_get_ne _ _ h1, setContact_get_ne h2 h3, setBenefits_get_ne h4,
    setOther_get_ne h5]


/-- Claim C4 (amended): every record `parse_job` produces has exactly the
fixed 25-field key set, in dict-literal order, and every one of those keys
holds a value (no field is absent); moreover every field the extractor could
not resolve holds the literal sentinel `"無"`: any table field whose heading
appears in no table row, the other-conditions and benefits fields when their
section is absent, and the contact fields when the contact block yields no
(or too few) data cells.  (The required fields and the source URL are always
resolved on a success path.) -/
theorem parse_job_field_set_complete (url : String) (page : DetailPage)
    (elog elog' : List (String × String)) (d : Dict)
    (h : parse_job url (.ok page) elog = .ok (some d, elog')) :
    d.map Prod.fst = field_keys ∧
    (∀ k ∈ field_keys, (dictGet d k).isSome) ∧
    (∀ k ∈ description_set,
      (∀ drows, page.descriptionRows = some drows → ∀ r ∈ drows, r.h3 ≠ some k) →
      dictGet d k = some (Value.Str "無")) ∧
    (∀ k ∈ requirement_set,
      (∀ rrows, page.requirementRows = some rrows → ∀ r ∈ rrows, r.h3 ≠ some k) →
      dictGet d k = some (Value.Str "無")) ∧
    (page.otherConditions = none → dictGet d "其他條件" = some (Value.Str "無")) ∧
    (page.benefits = none → dictGet d "公司福利" = some (Value.Str "無")) ∧
    ((∀ info, page.contactInfo = some info → info = []) →
      dictGet d "聯絡人" = some (Value.Str "無")) ∧
    ((∀ info, page.contactInfo = some info → info.length ≤ 1) →
      dictGet d "聯絡方式" = some (Value.Str "無")) := by
  obtain ⟨⟨page0, hf, hi⟩, hl⟩ := parse_job_ok_some h
  injection hf with hf
  subst hf
  obtain ⟨cn, jt, jd, drows, rrows, d1, d2, hcn, hjt, hjd, hdr, hrr, hd1, hd2, hd⟩ :=
    inner_ok_split hi
  have k1 : (dictSet init_data "公司名稱" (Value.Str cn)).map Prod.fst = field_keys := by
    rw [dictSet_keys_of_mem _ _ (by rw [init_data_keys]; decide)]
    exact init_data_keys
  have k2 : (dictSet (dictSet init_data "公司名稱" (Value.Str cn))
      "工作職稱" (Value.Str jt)).map Prod.fst = field_keys := by
    rw [dictSet_keys_of_mem _ _ (by rw [k1]; decide)]
    exact k1
  have k3 : (dictSet (dictSet (dictSet init_data "公司名稱" (Value.Str cn))
      "工作職稱" (Value.Str jt)) "工作內容" (Value.Str jd)).map Prod.fst = field_keys := by
    rw [dictSet_keys_of_mem _ _ (by rw [k2]; decide)]
    exact k2
  have kd1 : d1.map Prod.fst = field_keys :=
    foldRows_preserve (fun dd => dd.map Prod.fst = field_keys)
      (fun _ _ _ hh hp => applyDescRow_keys hh hp) drows _ d1 hd1 k3
  have kd2 : d2.map Prod.fst = field_keys :=
    foldRows_preserve (fun dd => dd.map Prod.fst = field_keys)
      (fun _ _ _ hh hp => applyReqRow_keys hh hp) rrows d1 d2 hd2 kd1
  have kopt : (setContact page (setBenefits page (setOther page d2))).map Prod.fst = field_keys :=
    setContact_keys (setBenefits_keys (setOther_keys kd2))
  have kfin : d.map Prod.fst = field_keys := by
    rw [hd, dictSet_keys_of_mem _ _ (by rw [kopt]; decide)]
    exact kopt
  have init3 : ∀ k : String, k ≠ "公司名稱" → k ≠ "工作職稱" → k ≠ "工作內容" →
      dictGet init_data k = some (Value.Str "無") →
      dictGet (dictSet (dictSet (dictSet init_data "公司名稱" (Value.Str cn))
        "工作職稱" (Value.Str jt)) "工作內容" (Value.Str jd)) k = some (Value.Str "無") := by
    intro k a1 a2 a3 a4
    rw [dictSet_get_ne _ _ a3, dictSet_get_ne _ _ a2, dictSet_get_ne _ _ a1]
    exact a4
  refine ⟨kfin, fun k hk => dictGet_isSome_of_mem_keys (by rw [kfin]; exact hk),
    ?_, ?_, ?_, ?_, ?_, ?_⟩
  · intro k hkd hnorow
    have hne : ∀ s : String, s ∉ description_set → k ≠ s :=
      fun s hs hk => hs (hk ▸ hkd)
    have hkr : k ∉ requirement_set :=
      (by decide : ∀ c ∈ description_set, c ∉ requirement_set) k hkd
    rw [hd, final_write_get_ne (hne _ (by decide)) (hne _ (by decide)) (hne _ (by decide))
      (hne _ (by decide)) (hne _ (by decide))]
    rw [foldRows_get_eq rrows d1 d2 (fun _ _ _ _ hok => applyReqRow_get_ne hkr hok) hd2]
    rw [foldRows_get_eq drows _ d1
      (fun _ r _ hm hok => applyDescRow_get_ne_header (hnorow drows hdr r hm) hok) hd1]
    exact init3 k (hne _ (by decide)) (hne _ (by decide)) (hne _ (by decide))
      ((by decide : ∀ c ∈ description_set, dictGet init_data c = some (Value.Str "無")) k hkd)
  · intro k hkq hnorow
    have hne : ∀ s : String, s ∉ requirement_set → k ≠ s :=
      fun s hs hk => hs (hk ▸ hkq)
    have hkd : k ∉ description_set :=
      (by decide : ∀ c ∈ requirement_set, c ∉ description_set) k hkq
    rw [hd, final_write_get_ne (hne _ (by decide)) (hne _ (by decide)) (hne _ (by decide))
      (hne _ (by decide)) (hne _ (by decide))]
    rw [foldRows_get_eq rrows d1 d2
      (fun _ r _ hm hok => applyReqRow_get_ne_header (hnorow rrows hrr r hm) hok) hd2]
    rw [foldRows_get_eq drows _ d1 (fun _ _ _ _ hok => applyDescRow_get_ne hkd hok) hd1]
    exact init3 k (hne _ (by decide)) (hne _ (by decide)) (hne _ (by decide))
      ((by decide : ∀ c ∈ requirement_set, dictGet init_data c = some (Value.Str "無")) k hkq)
  · intro hoc
    have hso : setOther page d2 = d2 := by
      unfold setOther
      rw [hoc]
    rw [hd, dictSet_get_ne _ _ (by decide), setContact_get_ne (by decide) (by decide),
      setBenefits_get_ne (by decide), hso]
    exact chain_get_sentinel "其他條件" (by decide) (by decide) (by decide) (by decide)
      (by decide) (by decide) hd1 hd2
  · intro hbf
    have hsb : setBenefits page (setOther page d2) = setOther page d2 := by
      unfold setBenefits
      rw [hbf]
    rw [hd, dictSet_get_ne _ _ (by decide), setContact_get_ne (by decide) (by decide),
      hsb, setOther_get_ne (by decide)]
    exact chain_get_sentinel "公司福利" (by decide) (by decide) (by decide) (by decide)
      (by decide) (by decide) hd1 hd2
  · intro hci
    rw [hd, dictSet_get_ne _ _ (by decide), setContact_eq_of_empty hci,
      setBenefits_get_ne (by decide), setOther_get_ne (by decide)]
    exact chain_get_sentinel "聯絡人" (by decide) (by decide) (by decide) (by decide)
      (by decide) (by decide) hd1 hd2
  · intro hci
    rw [hd, dictSet_get_ne _ _ (by decide), setContact_get_short hci,
      setBenefits_get_ne (by decide), setOther_get_ne (by decide)]
    exact chain_get_sentinel "聯絡方式" (by decide) (by decide) (by decide) (by decide)
      (by decide) (by decide) hd1 hd2

/-- Witness for C4 at the concrete sample page (whose 工作性質, 學歷要求 and
similar fields have no table row and indeed come out as the sentinel). -/
theorem parse_job_field_set_complete_witness :
    parse_job "https://www.104.com.tw/job/sample" (.ok sample_page) [] = .ok (some sample_rec, []) ∧
    (sample_rec.map Prod.fst = field_keys ∧
     (∀ k ∈ field_keys, (dictGet sample_rec k).isSome) ∧
     (∀ k ∈ description_set,
       (∀ drows, sample_page.descriptionRows = some drows → ∀ r ∈ drows, r.h3 ≠ some k) →
       dictGet sample_rec k = some (Value.Str "無")) ∧
     (∀ k ∈ requirement_set,
       (∀ rrows, sample_page.requirementRows = some rrows → ∀ r ∈ rrows, r.h3 ≠ some k) →
       dictGet sample_rec k = some (Value.Str "無")) ∧
     (sample_page.otherConditions = none → dictGet sample_rec "其他條件" = some (Value.Str "無")) ∧
     (sample_page.benefits = none → dictGet sample_rec "公司福利" = some (Value.Str "無")) ∧
     ((∀ info, sample_page.contactInfo = some info → info = []) →
       dictGet sample_rec "聯絡人" = some (Value.Str "無")) ∧
     ((∀ info, sample_page.contactInfo = some info → info.length ≤ 1) →
       dictGet sample_rec "聯絡方式" = some (Value.Str "無"))) :=
  ⟨by decide,
   parse_job_field_set_complete "https://www.104.com.tw/job/sample" sample_page []
     [] sample_rec (by decide)⟩

/-- Counterexample to C4 as stated ("no field is ever absent, empty, or
null"): on a page whose description element has empty text, `parse_job`
still produces a record, and its 工作內容 field is the empty string. -/
theorem parse_job_empty_field_counterexample :
    parsedField "https://www.104.com.tw/job/c4" c4page "工作內容" = some (Value.Str "") := by
  decide

/-- Claim C6: if extraction succeeds on a page, then on the same page with
its optional sections (benefits, contact block, other-conditions block)
removed it still succeeds, the corresponding fields keep the default
sentinel `"無"`, and the error log is left unchanged (no error entry is
recorded for that URL). -/
theorem optional_sections_defaulted (url : String) (page : DetailPage)
    (elog elog' : List (String × String)) (d : Dict)
    (h : parse_job url (.ok page) elog = .ok (some d, elog')) :
    ∃ d2, parse_job url (.ok (noOptionals page)) elog = .ok (some d2, elog) ∧
      dictGet d2 "其他條件" = some (Value.Str "無") ∧
      dictGet d2 "公司福利" = some (Value.Str "無") ∧
      dictGet d2 "聯絡人" = some (Value.Str "無") ∧
      dictGet d2 "聯絡方式" = some (Value.Str "無") := by
  obtain ⟨⟨page0, hf, hi⟩, hl⟩ := parse_job_ok_some h
  injection hf with hf
  subst hf
  obtain ⟨cn, jt, jd, drows, rrows, d1, d2, hcn, hjt, hjd, hdr, hrr, hd1, hd2, hd⟩ :=
    inner_ok_split hi
  have hinner : parse_job_inner url (noOptionals page) =
      .ok (dictSet d2 "連結路徑" (Value.Str url)) := by
    unfold parse_job_inner
    simp only [noOptionals]
    rw [hcn, hjt, hjd, hdr, hrr]
    simp only []
    rw [hd1]
    simp only []
    rw [hd2]
    simp only [setOther, setBenefits, setContact]
  have hpj : parse_job url (.ok (noOptionals page)) elog =
      .ok (some (dictSet d2 "連結路徑" (Value.Str url)), elog) := by
    unfold parse_job
    rw [show attempt_parse url (.ok (noOptionals page)) =
      .ok (dictSet d2 "連結路徑" (Value.Str url)) from hinner]
  have hsent : ∀ k : String, k ≠ "公司名稱" → k ≠ "工作職稱" → k ≠ "工作內容" →
      k ∉ description_set → k ∉ requirement_set → k ≠ "連結路徑" →
      dictGet init_data k = some (Value.Str "無") →
      dictGet (dictSet d2 "連結路徑" (Value.Str url)) k = some (Value.Str "無") := by
    intro k a1 a2 a3 a4 a5 a6 a7
    rw [dictSet_get_ne _ _ a6]
    exact chain_get_sentinel k a1 a2 a3 a4 a5 a7 hd1 hd2
  refine ⟨dictSet d2 "連結路徑" (Value.Str url), hpj, ?_, ?_, ?_, ?_⟩
  · exact hsent "其他條件" (by decide) (by decide) (by decide) (by decide) (by decide)
      (by decide) (by decide)
  · exact hsent "公司福利" (by decide) (by decide) (by decide) (by decide) (by decide)
      (by decide) (by decide)
  · exact hsent "聯絡人" (by decide) (by decide) (by decide) (by decide) (by decide)
      (by decide) (by decide)
  · exact hsent "聯絡方式" (by decide) (by decide) (by decide) (by decide) (by decide)
      (by decide) (by decide)

/-- Witness for C6 at the concrete sample page (whose optional sections are
all present and whose extraction succeeds). -/
theorem optional_sections_defaulted_witness :
    parse_job "https://www.104.com.tw/job/sample" (.ok sample_page) [] = .ok (some sample_rec, []) ∧
    (∃ d2, parse_job "https://www.104.com.tw/job/sample" (.ok (noOptionals sample_page)) [] =
        .ok (some d2, []) ∧
      dictGet d2 "其他條件" = some (Value.Str "無") ∧
      dictGet d2 "公司福利" = some (Value.Str "無") ∧
      dictGet d2 "聯絡人" = some (Value.Str "無") ∧
      dictGet d2 "聯絡方式" = some (Value.Str "無")) :=
  ⟨by decide,
   optional_sections_defaulted "https://www.104.com.tw/job/sample" sample_page [] []
     sample_rec (by decide)⟩

/-- Claim C7 (amended): for a category (職務類別) row the extractor collects
all `u` sub-elements in document order **without** filtering the `'、'`
separator; only for an accepted-status (接受身份) row does it collect the
`span` sub-elements in document order and drop every `'、'` token. -/
theorem list_field_extraction_rules (d : Dict) (item : Row) :
    (item.h3 = some "職務類別" →
      applyDescRow d item = .ok (dictSet d "職務類別" (Value.Lst item.us))) ∧
    (item.h3 = some "接受身份" →
      applyReqRow d item = .ok (dictSet d "接受身份"
        (Value.Lst (item.spans.filter (fun s => !(s == "、")))))) := by
  constructor
  · intro hh
    unfold applyDescRow
    rw [hh]
    simp [description_set]
  · intro hh
    unfold applyReqRow
    rw [hh]
    simp [requirement_set]

/-- Witness for C7: both row kinds evaluated on concrete rows through the
theorem. -/
theorem list_field_extraction_rules_witness :
    (applyDescRow init_data ⟨some "職務類別", [], ["資訊工程師", "、"], []⟩ =
      .ok (dictSet init_data "職務類別" (Value.Lst ["資訊工程師", "、"]))) ∧
    (applyReqRow init_data ⟨some "接受身份", [], [], ["上班族", "、"]⟩ =
      .ok (dictSet init_data "接受身份" (Value.Lst ["上班族"]))) := by
  constructor
  · exact (list_field_extraction_rules init_data ⟨some "職務類別", [], ["資訊工程師", "、"], []⟩).1 rfl
  · have h := (list_field_extraction_rules init_data ⟨some "接受身份", [], [], ["上班族", "、"]⟩).2 rfl
    rw [h]
    decide

/-- Counterexample to C7 as stated: a category row containing the literal
`'、'` element keeps it in the produced record's list (the code filters the
separator only for 接受身份); filtering it out, as the claim states, would
have yielded the empty list. -/
theorem category_separator_not_filtered :
    parsedField "https://www.104.com.tw/job/c7" c7page "職務類別" = some (Value.Lst ["、"]) ∧
    (["、"].filter (fun s => !(s == "、"))) = [] := by
  decide

/-- The pagination loop visits consecutive pages, snapshotting each page it
leaves: after `k` iterations starting at `page`, the session sits on page
`page + k` and the accumulator has grown by pages `page, …, page + k - 1`. -/
theorem paginate_loop_spec : ∀ (k page : Nat) (acc : List Nat),
    paginate_loop k page acc = (page + k, acc ++ (List.range k).map (fun i => page + i)) := by
  intro k
  induction k with
  | zero => intro page acc; simp [paginate_loop]
  | succ n ih =>
    intro page acc
    unfold paginate_loop
    rw [ih]
    rw [List.range_succ_eq_map]
    simp only [List.map_cons, List.map_map, List.append_assoc, List.singleton_append,
      Prod.mk.injEq]
    constructor
    · omega
    · have h1 : (fun i => page + 1 + i) = ((fun i => page + i) ∘ Nat.succ) := by
        funext i
        show page + 1 + i = page + (i + 1)
        omega
      simp [h1]

/-- Claim C2 (amended): for a parsed page count `N` the pagination phase
captures `(N − 2) + 1` snapshots (i.e. `N − 1` for `N ≥ 2`, one snapshot for
`N ≤ 2`, with truncated subtraction matching Python's empty negative
`range`), in page order: pages `1, 2, …, (N − 2) + 1`.  It does **not**
capture `N` snapshots. -/
theorem paginate_snapshot_count_and_order (n : Nat) :
    paginate n = (List.range ((n - 2) + 1)).map (fun i => i + 1) ∧
    (paginate n).length = (n - 2) + 1 := by
  have h := paginate_loop_spec (n - 2) 1 []
  have hmain : paginate n = (List.range ((n - 2) + 1)).map (fun i => i + 1) := by
    unfold paginate
    rw [h]
    simp only [List.nil_append]
    rw [List.range_succ, List.map_append]
    simp only [List.map_cons, List.map_nil]
    congr 1
    · congr 1
      funext i
      omega
    · congr 1
      omega
  exact ⟨hmain, by rw [hmain]; simp⟩

/-- Counterexample to C2 as stated: with a parsed page count of 3, the loop
plus final append captures 2 snapshots, not 3. -/
theorem paginate_three_pages_counterexample :
    (paginate 3).length = 2 ∧ (paginate 3).length ≠ 3 := by decide

theorem get_job_urls_from_length : ∀ (l : List Article) (u : List String),
    get_job_urls_from l = .ok u → u.length = l.length := by
  intro l
  induction l with
  | nil =>
    intro u h
    unfold get_job_urls_from at h
    injection h with h
    rw [← h]
    rfl
  | cons a rest ih =>
    intro u h
    unfold get_job_urls_from at h
    cases he : extract_url a with
    | error e => rw [he] at h; simp at h
    | ok s =>
      rw [he] at h
      simp only [] at h
      cases hr : get_job_urls_from rest with
      | error e => rw [hr] at h; simp at h
      | ok us =>
        rw [hr] at h
        simp only [Except.ok.injEq] at h
        rw [← h]
        simp [ih us hr]

theorem get_job_urls_from_append : ∀ (l1 l2 : List Article) (u1 u2 : List String),
    get_job_urls_from l1 = .ok u1 → get_job_urls_from l2 = .ok u2 →
    get_job_urls_from (l1 ++ l2) = .ok (u1 ++ u2) := by
  intro l1
  induction l1 with
  | nil =>
    intro l2 u1 u2 h1 h2
    unfold get_job_urls_from at h1
    injection h1 with h1
    rw [← h1]
    simpa using h2
  | cons a rest ih =>
    intro l2 u1 u2 h1 h2
    unfold get_job_urls_from at h1
    cases he : extract_url a with
    | error e => rw [he] at h1; simp at h1
    | ok s =>
      rw [he] at h1
      simp only [] at h1
      cases hr : get_job_urls_from rest with
      | error e => rw [hr] at h1; simp at h1
      | ok us =>
        rw [hr] at h1
        simp only [Except.ok.injEq] at h1
        rw [← h1]
        show get_job_urls_from (a :: (rest ++ l2)) = .ok ((s :: us) ++ u2)
        unfold get_job_urls_from
        rw [he, ih l2 us u2 hr h2]
        rfl

/-- Claim C8: `get_job_urls` is a pure, deterministic function of the
snapshot — two invocations on identical input are identical — it yields one
URL per job-entry article, and it preserves document order (the URLs of a
concatenated snapshot are the concatenated URL lists). -/
theorem get_job_urls_deterministic_ordered (p1 p2 : List Article)
    (u1 u2 : List String)
    (h1 : get_job_urls p1 = .ok u1) (h2 : get_job_urls p2 = .ok u2) :
    get_job_urls p1 = get_job_urls p1 ∧
    u1.length = (p1.filter (fun a => decide ("js-job-item" ∈ a.classes))).length ∧
    get_job_urls (p1 ++ p2) = .ok (u1 ++ u2) := by
  refine ⟨rfl, ?_, ?_⟩
  · exact get_job_urls_from_length _ _ h1
  · unfold get_job_urls at h1 h2 ⊢
    rw [List.filter_append]
    exact get_job_urls_from_append _ _ _ _ h1 h2

/-- Witness for C8 on two concrete one-job listing snapshots. -/
theorem get_job_urls_deterministic_ordered_witness :
    get_job_urls w8p1 = .ok ["https://www.104.com.tw/job/a1"] ∧
    get_job_urls w8p2 = .ok ["https://www.104.com.tw/job/b2"] ∧
    (get_job_urls w8p1 = get_job_urls w8p1 ∧
     (["https://www.104.com.tw/job/a1"] : List String).length =
       (w8p1.filter (fun a => decide ("js-job-item" ∈ a.classes))).length ∧
     get_job_urls (w8p1 ++ w8p2) =
       .ok (["https://www.104.com.tw/job/a1"] ++ ["https://www.104.com.tw/job/b2"])) :=
  ⟨by decide, by decide,
   get_job_urls_deterministic_ordered w8p1 w8p2 _ _ (by decide) (by decide)⟩

theorem filter_filter_and (p q : Dict → Bool) (l : List Dict) :
    List.filter p (List.filter q l) = List.filter (fun a => q a && p a) l := by
  induction l with
  | nil => rfl
  | cons a rest ih =>
    cases hq : q a with
    | false => simp [List.filter_cons, hq, ih]
    | true =>
      cases hp : p a with
      | false => simp [List.filter_cons, hq, hp, ih]
      | true => simp [List.filter_cons, hq, hp, ih]

theorem filterStep_ok : ∀ (col tok : String) (keep : Bool) (data out : List Dict),
    filterStep col tok keep data = .ok out →
    out = data.filter (fun j => getPasses j col tok keep) := by
  intro col tok keep data
  induction data with
  | nil =>
    intro out h
    unfold filterStep at h
    injection h with h
    rw [← h]
    rfl
  | cons j rest ih =>
    intro out h
    unfold filterStep at h
    cases hg : dictGet j col with
    | none => rw [hg] at h; simp at h
    | some v =>
      rw [hg] at h
      simp only [] at h
      cases hr : filterStep col tok keep rest with
      | error e => rw [hr] at h; simp at h
      | ok rest' =>
        rw [hr] at h
        simp only [Except.ok.injEq] at h
        have hpass : getPasses j col tok keep = (pyIn tok v == keep) := by
          unfold getPasses
          rw [hg]
        cases hk : (pyIn tok v == keep) with
        | true => rw [← h]; simp [hk, List.filter_cons, hpass, ih rest' hr]
        | false => rw [← h]; simp [hk, List.filter_cons, hpass, ih rest' hr]

theorem applyTokens_ok : ∀ (col : String) (keep : Bool) (toks : List String)
    (data out : List Dict),
    applyTokens col keep toks data = .ok out →
    out = data.filter (fun j => toks.all (fun t => getPasses j col t keep)) := by
  intro col keep toks
  induction toks with
  | nil =>
    intro data out h
    unfold applyTokens at h
    injection h with h
    rw [← h]
    simp
  | cons t ts ih =>
    intro data out h
    unfold applyTokens at h
    cases hs : filterStep col t keep data with
    | error e => rw [hs] at h; simp at h
    | ok d1 =>
      rw [hs] at h
      simp only [] at h
      have h1 := filterStep_ok col t keep data d1 hs
      have h2 := ih d1 out h
      rw [h2, h1, filter_filter_and]
      congr 1

theorem applyFilters_ok : ∀ (fs : List FilterCfg) (data out : List Dict),
    applyFilters fs data = .ok out → out = data.filter (passesAll fs) := by
  intro fs
  induction fs with
  | nil =>
    intro data out h
    unfold applyFilters at h
    injection h with h
    rw [← h]
    have hfun : passesAll ([] : List FilterCfg) = fun _ => true := by
      funext j
      rfl
    rw [hfun, List.filter_true]
  | cons f fs ih =>
    intro data out h
    unfold applyFilters at h
    cases hi : applyTokens f.col true (f.includes.getD []) data with
    | error e => rw [hi] at h; simp at h
    | ok d1 =>
      rw [hi] at h
      simp only [] at h
      cases hx : applyTokens f.col false (f.excludes.getD []) d1 with
      | error e => rw [hx] at h; simp at h
      | ok d2 =>
        rw [hx] at h
        simp only [] at h
        have e1 := applyTokens_ok _ _ _ _ _ hi
        have e2 := applyTokens_ok _ _ _ _ _ hx
        have e3 := ih d2 out h
        rw [e3, e2, e1, filter_filter_and, filter_filter_and]
        congr 1
        funext j
        simp [passesAll, passesFilter, List.all_cons, Bool.and_assoc]

/-- Claim C3 (amended): filtering retains exactly the records that contain
every include token and no exclude token of each configured column under
Python `in` semantics — substring containment for string-valued fields,
exact element membership for list-valued fields (`pyIn`) — and consequently
no surviving record's field contains an excluded token in that sense. -/
theorem applyFilters_characterization (fs : List FilterCfg) (data out : List Dict)
    (h : applyFilters fs data = .ok out) :
    out = data.filter (passesAll fs) ∧
    ∀ j ∈ out, ∀ f ∈ fs, ∀ t ∈ f.excludes.getD [], getPasses j f.col t false = true := by
  have h1 := applyFilters_ok fs data out h
  refine ⟨h1, ?_⟩
  intro j hj f hf t ht
  rw [h1] at hj
  have hp : passesAll fs j = true := List.of_mem_filter hj
  unfold passesAll at hp
  rw [List.all_eq_true] at hp
  have hpf := hp f hf
  unfold passesFilter at hpf
  rw [Bool.and_eq_true] at hpf
  have hx := hpf.2
  rw [List.all_eq_true] at hx
  exact hx t ht

/-- Witness for C3 on a concrete record set and filter spec. -/
theorem applyFilters_characterization_witness :
    applyFilters wfilters [wjob] = .ok [wjob] ∧
    ([wjob] = [wjob].filter (passesAll wfilters) ∧
     ∀ j ∈ [wjob], ∀ f ∈ wfilters, ∀ t ∈ f.excludes.getD [],
       getPasses j f.col t false = true) :=
  ⟨by decide, applyFilters_characterization wfilters [wjob] [wjob] (by decide)⟩

/-- Counterexample to C3 as stated: the record's category field contains the
include token "engineering" under substring semantics, yet the code's filter
removes the record (for a list-valued field, Python `in` is exact element
membership, not substring containment). -/
theorem filter_substring_claim_counterexample :
    applyFilters c3filters [c3job] = .ok [] ∧
    specSubstringContains (Value.Lst ["software engineering"]) "engineering" = true ∧
    dictGet c3job "職務類別" = some (Value.Lst ["software engineering"]) := by
  decide

theorem company_values_length : ∀ (data : List Dict) (vs : List Value),
    company_values data = .ok vs → vs.length = data.length := by
  intro data
  induction data with
  | nil =>
    intro vs h
    unfold company_values at h
    injection h with h
    rw [← h]
    rfl
  | cons j rest ih =>
    intro vs h
    unfold company_values at h
    cases hg : dictGet j "公司名稱" with
    | none => rw [hg] at h; simp at h
    | some v =>
      rw [hg] at h
      simp only [] at h
      cases hr : company_values rest with
      | error e => rw [hr] at h; simp at h
      | ok vs0 =>
        rw [hr] at h
        simp only [Except.ok.injEq] at h
        rw [← h]
        simp [ih vs0 hr]

/-- Claim C9: for any record set and filter spec, the number of distinct
company-field values among the filtered records never exceeds the number of
filtered records. -/
theorem distinct_company_le_filtered (fs : List FilterCfg) (data out : List Dict)
    (n : Nat) (_hf : applyFilters fs data = .ok out) (hc : company_count out = .ok n) :
    n ≤ out.length := by
  unfold company_count at hc
  cases hv : company_values out with
  | error e => rw [hv] at hc; simp at hc
  | ok vs =>
    rw [hv] at hc
    simp only [Except.ok.injEq] at hc
    rw [← hc]
    calc vs.dedup.length ≤ vs.length := (List.dedup_sublist vs).length_le
    _ = out.length := company_values_length out vs hv

/-- Witness for C9 on a concrete filtered record set. -/
theorem distinct_company_le_filtered_witness :
    applyFilters wfilters [wjob] = .ok [wjob] ∧ company_count [wjob] = .ok 1 ∧
    1 ≤ ([wjob] : List Dict).length :=
  ⟨by decide, by decide,
   distinct_company_le_filtered wfilters [wjob] [wjob] 1 (by decide) (by decide)⟩

/-- Claim C1 (code bug evidence): on a one-URL crawl whose detail page lacks
the required company element, the parallel pass fails the URL (its slot is
`None`), yet the pipeline's retry list is empty — the error entries were
appended to the worker processes' copies of `error_log`, the parent's list
is still empty when deep-copied, so no URL is ever re-attempted — and the
run ends with `totalCount = 1`, `successCount = 0` and no records. -/
theorem retry_never_runs_on_failure :
    parallel_parse c1site ["https://www.104.com.tw/job/fail"] = .ok [none] ∧
    main_pipeline c1site ["https://www.104.com.tw/job/fail"] =
      .ok ⟨[], 1, 0, []⟩ := by
  decide
